import Mathlib

/-!
# Cosmic Clock engine — verification of the specification against the source

Shallow embedding of the calculation core of `src/App.tsx` (Cosmic Clock —
Multi-Body v1.3): the wrap modulo, clock formatting, equation of time, Earth
and Mars solar-time calculators, the generic rotational-clock model, the
circular orbital-position model, and the SPICE ephemeris-source abstraction
with its fallback logic.  JavaScript numbers are modelled as real numbers;
the JS `%` operator (truncated remainder) is modelled by `jsRem`.
-/

namespace CosmicClock

/-- Truncation toward zero, as performed by the JS `%` operator on the
quotient: floor for non-negative arguments, ceiling for negative ones. -/
noncomputable def trunc (x : ℝ) : ℤ := if 0 ≤ x then ⌊x⌋ else ⌈x⌉

/-- The JS remainder operator `n % m` (sign follows the dividend):
`n - m * trunc (n / m)`. -/
noncomputable def jsRem (n m : ℝ) : ℝ := n - m * trunc (n / m)

/-- `const mod = (n, m) => ((n % m) + m) % m` (App.tsx line 14). -/
noncomputable def mod (n m : ℝ) : ℝ := jsRem (jsRem n m + m) m

theorem trunc_of_nonneg {x : ℝ} (h : 0 ≤ x) : trunc x = ⌊x⌋ := if_pos h

theorem trunc_of_neg {x : ℝ} (h : x < 0) : trunc x = ⌈x⌉ := if_neg (not_le.mpr h)

/-- `jsRem` of a value already in `[0, m)` is the value itself. -/
theorem jsRem_small {y m : ℝ} (hm : 0 < m) (h0 : 0 ≤ y) (h1 : y < m) :
    jsRem y m = y := by
  have hq : 0 ≤ y / m := div_nonneg h0 hm.le
  unfold jsRem
  rw [trunc_of_nonneg hq]
  have hfl : ⌊y / m⌋ = 0 := Int.floor_eq_zero_iff.mpr ⟨hq, (div_lt_one hm).mpr h1⟩
  rw [hfl]
  simp

/-- `jsRem` of a value in `[m, 2m)` subtracts one period. -/
theorem jsRem_shift {y m : ℝ} (hm : 0 < m) (h0 : m ≤ y) (h1 : y < 2 * m) :
    jsRem y m = y - m := by
  have hq : 0 ≤ y / m := div_nonneg (hm.le.trans h0) hm.le
  have h2 : (1 : ℝ) ≤ y / m := (one_le_div hm).mpr h0
  have h3 : y / m < 2 := (div_lt_iff₀ hm).mpr (by linarith)
  unfold jsRem
  rw [trunc_of_nonneg hq]
  have hfl : ⌊y / m⌋ = 1 := by
    rw [Int.floor_eq_iff]
    constructor
    · exact_mod_cast h2
    · push_cast; linarith
  rw [hfl]
  push_cast
  ring

/-- For a positive modulus the two-step JS construction `((n % m) + m) % m`
coincides with the floored modulo `Int.fract (n/m) * m`. -/
theorem mod_eq_fract (n : ℝ) {m : ℝ} (hm : 0 < m) :
    mod n m = Int.fract (n / m) * m := by
  have hm0 : m ≠ 0 := ne_of_gt hm
  have hfr0 : 0 ≤ Int.fract (n / m) := Int.fract_nonneg _
  have hfr1 : Int.fract (n / m) < 1 := Int.fract_lt_one _
  unfold mod
  rcases le_or_lt 0 (n / m) with hq | hq
  · -- non-negative quotient: the first remainder is already the residue
    have h1 : jsRem n m = Int.fract (n / m) * m := by
      unfold jsRem
      rw [trunc_of_nonneg hq, Int.fract]
      field_simp
    rw [h1, jsRem_shift hm (by nlinarith) (by nlinarith)]
    ring
  · -- negative quotient: the first remainder lies in `(-m, 0]`
    have h1 : jsRem n m = (n / m - ⌈n / m⌉) * m := by
      unfold jsRem
      rw [trunc_of_neg hq]
      field_simp
    by_cases hfr : Int.fract (n / m) = 0
    · -- the quotient is an integer: residue 0
      have hfl : (⌊n / m⌋ : ℝ) = n / m := by
        have := Int.self_sub_fract (n / m)
        rw [hfr] at this
        linarith
      have hcl : ⌈n / m⌉ = ⌊n / m⌋ := by
        refine le_antisymm (Int.ceil_le.mpr (le_of_eq hfl.symm)) (Int.floor_le_ceil _)
      have hc0 : n / m - (⌈n / m⌉ : ℝ) = 0 := by
        rw [hcl, hfl]
        ring
      rw [h1, hc0, zero_mul, zero_add]
      have hmm : jsRem m m = 0 := by
        unfold jsRem
        rw [div_self hm0, trunc_of_nonneg (by norm_num : (0:ℝ) ≤ 1)]
        norm_num
      rw [hmm, hfr, zero_mul]
    · -- non-integer quotient: the shift by `m` lands exactly on the residue
      have hceq : (⌈n / m⌉ : ℝ) = n / m + 1 - Int.fract (n / m) :=
        Int.ceil_eq_add_one_sub_fract hfr
      have hc : n / m - (⌈n / m⌉ : ℝ) = Int.fract (n / m) - 1 := by
        rw [hceq]; ring
      have hfrpos : 0 < Int.fract (n / m) := lt_of_le_of_ne hfr0 (Ne.symm hfr)
      rw [h1, hc]
      have harg : (Int.fract (n / m) - 1) * m + m = Int.fract (n / m) * m := by ring
      rw [harg]
      exact jsRem_small hm (by positivity) (by nlinarith)

theorem mod_nonneg (n : ℝ) {m : ℝ} (hm : 0 < m) : 0 ≤ mod n m := by
  rw [mod_eq_fract n hm]
  exact mul_nonneg (Int.fract_nonneg _) hm.le

theorem mod_lt (n : ℝ) {m : ℝ} (hm : 0 < m) : mod n m < m := by
  rw [mod_eq_fract n hm]
  calc Int.fract (n / m) * m < 1 * m :=
        (mul_lt_mul_right hm).mpr (Int.fract_lt_one _)
    _ = m := one_mul m

/-- A value already in `[0, m)` is a fixed point of `mod`. -/
theorem mod_eq_self {x m : ℝ} (hm : 0 < m) (h0 : 0 ≤ x) (h1 : x < m) :
    mod x m = x := by
  rw [mod_eq_fract x hm]
  have : Int.fract (x / m) = x / m :=
    Int.fract_eq_self.mpr ⟨div_nonneg h0 hm.le, (div_lt_one hm).mpr h1⟩
  rw [this]
  field_simp

/-- `mod` kills integer multiples of the modulus. -/
theorem mod_int_mul {m : ℝ} (hm : 0 < m) (k : ℤ) : mod (m * k) m = 0 := by
  rw [mod_eq_fract _ hm]
  have : (m * (k:ℝ)) / m = (k:ℝ) := by
    field_simp
  rw [this, Int.fract_intCast, zero_mul]

/-- `mod n m = n - m * ⌊n / m⌋` for positive `m`. -/
theorem mod_eq_sub_floor (n : ℝ) {m : ℝ} (hm : 0 < m) :
    mod n m = n - m * ⌊n / m⌋ := by
  rw [mod_eq_fract n hm, Int.fract]
  field_simp

/-- C4. For every real `n` and every positive real `m`, the wrap helper
`mod(n,m) = ((n % m) + m) % m` returns a value in `[0, m)`; in particular the
result is non-negative even when `n` is negative. -/
theorem mod_wrap_invariant_C4 (n m : ℝ) (hm : 0 < m) :
    0 ≤ mod n m ∧ mod n m < m :=
  ⟨mod_nonneg n hm, mod_lt n hm⟩

/-- Witness for C4 at `n = -5`, `m = 24`. -/
theorem mod_wrap_invariant_C4_witness :
    (0:ℝ) < 24 ∧ (0 ≤ mod (-5) 24 ∧ mod (-5) 24 < 24) :=
  ⟨by norm_num, mod_wrap_invariant_C4 (-5) 24 (by norm_num)⟩

/-! ## Clock formatting (`formatHMS`, App.tsx lines 18-24)

The source formats via `pad2` into a string; the numeric hour/minute/second
components it computes are kept here as a triple. -/

/-- The (hour, minute, second) components computed by `formatHMS`:
`h = mod(Math.floor(hoursFloat), 24)`, `m = Math.floor(mod(hoursFloat*60, 60))`,
`s = Math.floor(mod(hoursFloat*3600, 60))`. -/
noncomputable def formatHMS (hoursFloat : ℝ) : ℝ × ℝ × ℝ :=
  (mod (↑⌊hoursFloat⌋) 24, ↑⌊mod (hoursFloat * 60) 60⌋, ↑⌊mod (hoursFloat * 3600) 60⌋)

/-- C8. For every `h ∈ [0,24)`, decomposing into the H:M:S components of
`formatHMS` and reconstructing `H + M/60 + S/3600` differs from `h` by less
than one second of time (`1/3600` hours). -/
theorem format_roundtrip_C8 (h : ℝ) (h0 : 0 ≤ h) (h1 : h < 24) :
    |((formatHMS h).1 + (formatHMS h).2.1 / 60 + (formatHMS h).2.2 / 3600) - h|
      < 1 / 3600 := by
  have h60 : (0:ℝ) < 60 := by norm_num
  have hH : (formatHMS h).1 = (⌊h⌋ : ℝ) := by
    show mod (↑⌊h⌋) 24 = (⌊h⌋ : ℝ)
    refine mod_eq_self (by norm_num) ?_ ?_
    · exact_mod_cast Int.floor_nonneg.mpr h0
    · exact lt_of_le_of_lt (Int.floor_le h) h1
  have hM : (formatHMS h).2.1 = (⌊Int.fract h * 60⌋ : ℝ) := by
    show (↑⌊mod (h * 60) 60⌋ : ℝ) = _
    rw [mod_eq_fract _ h60, mul_div_cancel_right₀ h (by norm_num : (60:ℝ) ≠ 0)]
  have hS : (formatHMS h).2.2 = (⌊Int.fract (Int.fract h * 60) * 60⌋ : ℝ) := by
    show (↑⌊mod (h * 3600) 60⌋ : ℝ) = _
    rw [mod_eq_fract _ h60]
    have e1 : h * 3600 / 60 = h * 60 := by
      field_simp
      ring
    have e2 : h * 60 = ((⌊h⌋ * 60 : ℤ) : ℝ) + Int.fract h * 60 := by
      have := Int.floor_add_fract h
      push_cast
      nlinarith
    rw [e1, e2, Int.fract_int_add]
  rw [hH, hM, hS]
  have hh : (⌊h⌋ : ℝ) + Int.fract h = h := Int.floor_add_fract h
  have hfg : (⌊Int.fract h * 60⌋ : ℝ) + Int.fract (Int.fract h * 60)
      = Int.fract h * 60 := Int.floor_add_fract _
  have hse : (⌊Int.fract (Int.fract h * 60) * 60⌋ : ℝ)
      + Int.fract (Int.fract (Int.fract h * 60) * 60)
      = Int.fract (Int.fract h * 60) * 60 := Int.floor_add_fract _
  have he0 : 0 ≤ Int.fract (Int.fract (Int.fract h * 60) * 60) := Int.fract_nonneg _
  have he1 : Int.fract (Int.fract (Int.fract h * 60) * 60) < 1 := Int.fract_lt_one _
  rw [abs_lt]
  constructor <;> linarith

/-- Witness for C8 at `h = 1.5` (01:30:00). -/
theorem format_roundtrip_C8_witness :
    (0:ℝ) ≤ 1.5 ∧ (1.5:ℝ) < 24 ∧
    |((formatHMS 1.5).1 + (formatHMS 1.5).2.1 / 60 + (formatHMS 1.5).2.2 / 3600)
        - 1.5| < 1 / 3600 :=
  ⟨by norm_num, by norm_num, format_roundtrip_C8 1.5 (by norm_num) (by norm_num)⟩

/-! ## Mars time calculator (App.tsx lines 46-49) -/

/-- `marsMTC_Hours(msd) = mod((msd % 1) * 24, 24)` (App.tsx line 48). -/
noncomputable def marsMTC_Hours (msd : ℝ) : ℝ := mod (jsRem msd 1 * 24) 24

/-- `marsLMST_Hours(msd, lon) = mod(marsMTC_Hours(msd) + lon/15, 24)`
(App.tsx line 49). -/
noncomputable def marsLMST_Hours (msd lon : ℝ) : ℝ :=
  mod (marsMTC_Hours msd + lon / 15) 24

/-- C6. For every Mars Sol Date `msd`, Mars Coordinated Time and Mars local
mean solar time at longitude 0 differ by less than 0.005 hours (in fact they
are equal). -/
theorem mars_coincidence_C6 (msd : ℝ) :
    |marsMTC_Hours msd - marsLMST_Hours msd 0| < 0.005 := by
  have h24 : (0:ℝ) < 24 := by norm_num
  have heq : marsLMST_Hours msd 0 = marsMTC_Hours msd := by
    unfold marsLMST_Hours
    rw [zero_div, add_zero]
    exact mod_eq_self h24 (mod_nonneg _ h24) (mod_lt _ h24)
  rw [heq, sub_self, abs_zero]
  norm_num

/-! ## Generic rotational-clock model (App.tsx lines 274-275, 334-348) -/

/-- Venus's solar-day length in hours, `-116.75*24` (App.tsx line 335);
negative to encode retrograde rotation. -/
noncomputable def venusSolarDayHours : ℝ := -116.75 * 24

/-- Jupiter's System III rotation period in hours, `9.925` (App.tsx line 335). -/
noncomputable def jupiterSolarDayHours : ℝ := 9.925

/-- The shared reference epoch `epochJDTT: 2451545` of the `Bodies` table
(App.tsx line 335). -/
noncomputable def bodiesEpochJDTT : ℝ := 2451545

/-- `venusDayNum = Math.floor((jdTT - epoch) / (solarDayHours/24))`
(App.tsx line 347). -/
noncomputable def venusDayNum (jdTT : ℝ) : ℤ :=
  ⌊(jdTT - bodiesEpochJDTT) / (venusSolarDayHours / 24)⌋

/-- `jupiterDayNum = Math.floor((jdTT - epoch) / (solarDayHours/24))`
(App.tsx line 348). -/
noncomputable def jupiterDayNum (jdTT : ℝ) : ℤ :=
  ⌊(jdTT - bodiesEpochJDTT) / (jupiterSolarDayHours / 24)⌋

/-- C5. As Terrestrial Time advances, Venus's day number (negative solar-day
period) is non-increasing while Jupiter's (positive rotation period) is
non-decreasing. -/
theorem retrograde_sign_C5 (jdTT1 jdTT2 : ℝ) (h : jdTT1 ≤ jdTT2) :
    venusDayNum jdTT2 ≤ venusDayNum jdTT1 ∧
    jupiterDayNum jdTT1 ≤ jupiterDayNum jdTT2 := by
  constructor
  · apply Int.floor_le_floor
    have hd : venusSolarDayHours / 24 < 0 := by
      unfold venusSolarDayHours
      norm_num
    rw [div_le_div_right_of_neg hd]
    linarith
  · apply Int.floor_le_floor
    have hd : 0 < jupiterSolarDayHours / 24 := by
      unfold jupiterSolarDayHours
      norm_num
    rw [div_le_div_iff_of_pos_right hd]
    linarith

/-- Witness for C5: one calendar day after J2000, Venus's count has not
increased and Jupiter's has not decreased. -/
theorem retrograde_sign_C5_witness :
    (2451545 : ℝ) ≤ 2451546 ∧
    (venusDayNum 2451546 ≤ venusDayNum 2451545 ∧
     jupiterDayNum 2451545 ≤ jupiterDayNum 2451546) :=
  ⟨by norm_num, retrograde_sign_C5 2451545 2451546 (by norm_num)⟩

/-- `genericCT(hoursPerSolarDay, epoch, jdTTlocal)` from the main component
(App.tsx line 334), with the `jdTTlocal ?? jdTT` ambient default made an
explicit argument. -/
noncomputable def genericCT (hoursPerSolarDay epoch jdTTlocal : ℝ) : ℝ :=
  let base := jdTTlocal
  let days := (base - epoch) / (hoursPerSolarDay / 24)
  mod (jsRem days 1 * 24) 24

/-- `rotationCT_24hDial(jdTT, periodHours, epochJDTT)` used for the thirteen
moons (App.tsx line 274). -/
noncomputable def rotationCT_24hDial (jdTT periodHours epochJDTT : ℝ) : ℝ :=
  let days := (jdTT - epochJDTT) / (periodHours / 24)
  mod (jsRem days 1 * 24) 24

/-- `rotationCount(jdTT, periodHours, epochJDTT)` (App.tsx line 275). -/
noncomputable def rotationCount (jdTT periodHours epochJDTT : ℝ) : ℤ :=
  ⌊(jdTT - epochJDTT) / (periodHours / 24)⌋

/-- C10. The two independent implementations of the generic 24-hour
rotational dial agree for every time, non-zero period, and epoch. -/
theorem generic_dial_equiv_C10 (jdTT periodHours epoch : ℝ)
    (_hp : periodHours ≠ 0) :
    genericCT periodHours epoch jdTT = rotationCT_24hDial jdTT periodHours epoch :=
  rfl

/-- Witness for C10 at `jdTT = 0`, `periodHours = 24`, `epoch = 0`. -/
theorem generic_dial_equiv_C10_witness :
    (24:ℝ) ≠ 0 ∧ genericCT 24 0 0 = rotationCT_24hDial 0 24 0 :=
  ⟨by norm_num, generic_dial_equiv_C10 0 24 0 (by norm_num)⟩

/-! ## Time base, equation of time, Earth solar time (App.tsx lines 25-43)

A JS `Date` object is modelled by the surface the engine reads from it:
`getTime()`, `getUTCFullYear()` and the UTC time-of-day accessors.  The
fields are unconstrained; every theorem below holds for arbitrary values. -/

/-- The readings the engine takes from a JS `Date`. -/
structure JSDate where
  time : ℝ
  utcFullYear : ℤ
  utcHours : ℝ
  utcMinutes : ℝ
  utcSeconds : ℝ
  utcMilliseconds : ℝ

/-- Leap years of the proleptic Gregorian calendar strictly before year `y`. -/
def leapsBefore (y : ℤ) : ℤ := (y - 1).fdiv 4 - (y - 1).fdiv 100 + (y - 1).fdiv 400

/-- Days from the Unix epoch to Jan 1 of year `y` (UTC). -/
def daysFromEpochJan1 (y : ℤ) : ℤ := 365 * (y - 1970) + (leapsBefore y - leapsBefore 1970)

/-- Models the JS builtin call `Date.UTC(year, 0, 1)` (milliseconds of
Jan 1, 00:00:00 UTC) used by `dayOfYearUTC` (App.tsx line 25). -/
noncomputable def dateUTCJan1ms (y : ℤ) : ℝ := 86400000 * (daysFromEpochJan1 y : ℝ)

/-- `dayOfYearUTC(d) = Math.floor((d.getTime() - start)/86400000) + 1`
(App.tsx line 25). -/
noncomputable def dayOfYearUTC (d : JSDate) : ℤ :=
  ⌊(d.time - dateUTCJan1ms d.utcFullYear) / 86400000⌋ + 1

/-- `toRad` (App.tsx line 15). -/
noncomputable def toRad (deg : ℝ) : ℝ := deg * Real.pi / 180

/-- `toDeg` (App.tsx line 16). -/
noncomputable def toDeg (rad : ℝ) : ℝ := rad * 180 / Real.pi

/-- `equationOfTimeMinutes` (App.tsx lines 28-33): truncated Fourier series
in the fractional-year angle. -/
noncomputable def equationOfTimeMinutes (d : JSDate) : ℝ :=
  let N : ℝ := (dayOfYearUTC d : ℝ)
  let hours := d.utcHours + d.utcMinutes / 60 + d.utcSeconds / 3600
  let gamma := (2 * Real.pi / 365) * (N - 1 + (hours - 12) / 24)
  229.18 * (0.000075 + 0.001868 * Real.cos gamma - 0.032077 * Real.sin gamma
    - 0.014615 * Real.cos (2 * gamma) - 0.040849 * Real.sin (2 * gamma))

/-- `earthMeanSolarTimeHours` (App.tsx lines 37-40). -/
noncomputable def earthMeanSolarTimeHours (d : JSDate) (lon : ℝ) : ℝ :=
  let utcHours := d.utcHours + d.utcMinutes / 60 + d.utcSeconds / 3600
    + d.utcMilliseconds / 3600000
  mod (utcHours + lon / 15) 24

/-- `earthApparentSolarTimeHours` (App.tsx lines 41-43). -/
noncomputable def earthApparentSolarTimeHours (d : JSDate) (lon : ℝ) : ℝ :=
  mod (earthMeanSolarTimeHours d lon + equationOfTimeMinutes d / 60) 24

/-- C7. For every instant and longitude, `mod(LAST - LMST - EoT/60, 24)`
reduced to its minimal circular magnitude is below 0.01 hours (it is 0). -/
theorem earth_identity_C7 (d : JSDate) (lon : ℝ) :
    min (mod (earthApparentSolarTimeHours d lon - earthMeanSolarTimeHours d lon
              - equationOfTimeMinutes d / 60) 24)
        (24 - mod (earthApparentSolarTimeHours d lon - earthMeanSolarTimeHours d lon
              - equationOfTimeMinutes d / 60) 24) < 0.01 := by
  have h24 : (0:ℝ) < 24 := by norm_num
  set a := earthMeanSolarTimeHours d lon + equationOfTimeMinutes d / 60 with ha
  have hsub : earthApparentSolarTimeHours d lon - earthMeanSolarTimeHours d lon
      - equationOfTimeMinutes d / 60 = mod a 24 - a := by
    show mod a 24 - earthMeanSolarTimeHours d lon - equationOfTimeMinutes d / 60
        = mod a 24 - a
    rw [ha]
    ring
  rw [hsub]
  have hint : mod a 24 - a = 24 * ((-⌊a / 24⌋ : ℤ) : ℝ) := by
    rw [mod_eq_sub_floor a h24]
    push_cast
    ring
  rw [hint, mod_int_mul h24]
  norm_num

/-! ## Circular orbital-position model (App.tsx lines 61-73, 128-136) -/

/-- `AU_KM = 149597870.7` (App.tsx line 61). -/
noncomputable def AU_KM : ℝ := 149597870.7

/-- `J2000_TT = 2451545.0` (App.tsx line 61). -/
noncomputable def J2000_TT : ℝ := 2451545.0

/-- One entry of the `getOrbitalBodies()` catalog. -/
structure OrbitalBody where
  name : String
  a_AU : ℝ
  T_days : ℝ

/-- The fixed eight-body catalog (App.tsx lines 62-71). -/
noncomputable def getOrbitalBodies : List OrbitalBody :=
  [⟨"Mercury", 0.38709893, 87.969⟩,
   ⟨"Venus", 0.72333199, 224.701⟩,
   ⟨"Earth", 1.00000011, 365.256⟩,
   ⟨"Mars", 1.52366231, 686.98⟩,
   ⟨"Jupiter", 5.20336301, 4332.589⟩,
   ⟨"Saturn", 9.53707032, 10759.22⟩,
   ⟨"Uranus", 19.19126393, 30688.5⟩,
   ⟨"Neptune", 30.06896348, 60182⟩]

/-- `meanLongitudeDeg(jdTT, T) = mod(((jdTT - J2000_TT)/T)*360, 360)`
(App.tsx line 72). -/
noncomputable def meanLongitudeDeg (jdTT T : ℝ) : ℝ :=
  mod (((jdTT - J2000_TT) / T) * 360) 360

/-- `speedKmPerSec(a, T) = (2π a AU_KM)/T/86400` (App.tsx line 73). -/
noncomputable def speedKmPerSec (a T : ℝ) : ℝ :=
  (2 * Real.pi * a * AU_KM) / T / 86400

/-- `bodies.find(b => b.name === 'Earth')!` as in `runSelfChecks`
(App.tsx line 388). -/
noncomputable def earthBody : OrbitalBody :=
  (getOrbitalBodies.find? (fun b => b.name == "Earth")).getD ⟨"", 0, 0⟩

/-- `bodies.find(b => b.name === 'Mercury')!` (App.tsx line 388). -/
noncomputable def mercuryBody : OrbitalBody :=
  (getOrbitalBodies.find? (fun b => b.name == "Mercury")).getD ⟨"", 0, 0⟩

/-- `bodies.find(b => b.name === 'Neptune')!` (App.tsx line 388). -/
noncomputable def neptuneBody : OrbitalBody :=
  (getOrbitalBodies.find? (fun b => b.name == "Neptune")).getD ⟨"", 0, 0⟩

/-- C9. The mean circular orbital speeds computed from the catalog constants:
Earth in [29.28, 30.28] km/s, Mercury in [46.36, 48.36] km/s and Neptune in
[5.23, 5.63] km/s. -/
theorem orbital_speed_bounds_C9 :
    (29.28 ≤ speedKmPerSec earthBody.a_AU earthBody.T_days ∧
      speedKmPerSec earthBody.a_AU earthBody.T_days ≤ 30.28) ∧
    (46.36 ≤ speedKmPerSec mercuryBody.a_AU mercuryBody.T_days ∧
      speedKmPerSec mercuryBody.a_AU mercuryBody.T_days ≤ 48.36) ∧
    (5.23 ≤ speedKmPerSec neptuneBody.a_AU neptuneBody.T_days ∧
      speedKmPerSec neptuneBody.a_AU neptuneBody.T_days ≤ 5.63) := by
  have hE : speedKmPerSec earthBody.a_AU earthBody.T_days
      = 2 * Real.pi * 1.00000011 * 149597870.7 / 365.256 / 86400 := rfl
  have hM : speedKmPerSec mercuryBody.a_AU mercuryBody.T_days
      = 2 * Real.pi * 0.38709893 * 149597870.7 / 87.969 / 86400 := rfl
  have hN : speedKmPerSec neptuneBody.a_AU neptuneBody.T_days
      = 2 * Real.pi * 30.06896348 * 149597870.7 / 60182 / 86400 := rfl
  have hpi1 : (3.141592 : ℝ) < Real.pi := by
    have := Real.pi_gt_d6
    linarith
  have hpi2 : Real.pi < 3.141593 := by
    have := Real.pi_lt_d6
    linarith
  rw [hE, hM, hN]
  norm_num
  constructor
  · constructor <;> nlinarith
  constructor
  · constructor <;> nlinarith
  · constructor <;> nlinarith

/-! ## SPICE ephemeris-source abstraction (App.tsx lines 104-136, 356-383)

`fetchSpiceStates` either throws (network error, `!res.ok`, unparsable JSON)
— modelled by a `none` response — or returns a record keyed by body name
built from the parsed rows, later rows overwriting earlier ones.  The
`useEffect` rows builder then merges the record with the catalog, falling
back to the circular model when nothing was mapped or the fetch failed. -/

/-- One element of the backend JSON response, with exactly the fields the
source reads (App.tsx line 113). -/
structure SpiceJsonRow where
  name : String
  x_km : ℝ
  y_km : ℝ
  vx_km_s : ℝ
  vy_km_s : ℝ

/-- The per-body value stored in the record returned by `fetchSpiceStates`. -/
structure SpiceState where
  x_AU : ℝ
  y_AU : ℝ
  thetaDeg : ℝ
  v_kms : ℝ

/-- Models the JS builtin `Math.atan2(y, x)`: the argument of the complex
number `x + iy`, in `(-π, π]`. -/
noncomputable def atan2 (y x : ℝ) : ℝ := Complex.arg ⟨x, y⟩

/-- Models the JS builtin `Math.hypot(a, b) = √(a² + b²)`. -/
noncomputable def hypot (a b : ℝ) : ℝ := Real.sqrt (a ^ 2 + b ^ 2)

/-- The loop body of `fetchSpiceStates` (App.tsx lines 115-120): kilometres
to AU, angle from `atan2`, speed from `hypot`. -/
noncomputable def spiceStateOf (r : SpiceJsonRow) : SpiceState :=
  let x_AU := r.x_km / AU_KM
  let y_AU := r.y_km / AU_KM
  { x_AU := x_AU, y_AU := y_AU,
    thetaDeg := mod (toDeg (atan2 y_AU x_AU)) 360,
    v_kms := hypot r.vx_km_s r.vy_km_s }

/-- The record `out` built by `fetchSpiceStates` from a parsed response:
`out[row.name] = {...}` for each row, later rows overwriting earlier ones. -/
noncomputable def mapJson (json : List SpiceJsonRow) : String → Option SpiceState :=
  json.foldl
    (fun out r => fun n => if n = r.name then some (spiceStateOf r) else out n)
    (fun _ => none)

/-- `fetchSpiceStates` (App.tsx lines 108-126): `none` models any thrown
failure (network error, non-success status, unparsable body); on a parsed
response it returns the name-keyed record. -/
noncomputable def fetchSpiceStates (response : Option (List SpiceJsonRow)) :
    Option (String → Option SpiceState) :=
  response.map mapJson

/-- The `spiceStatus` state values `idle | loading | ok | error`
(App.tsx line 358). -/
inductive SpiceStatus
  | idle
  | loading
  | ok
  | error
deriving DecidableEq

/-- The `dataSource` toggle `model | spice` (App.tsx line 357). -/
inductive DataSource
  | model
  | spice
deriving DecidableEq

/-- One row of the position table (App.tsx line 129). -/
structure OrbitalRow where
  name : String
  a : ℝ
  theta : ℝ
  x : ℝ
  y : ℝ
  v : ℝ
  T : ℝ

/-- `circularRows(jdTT)` (App.tsx lines 130-136). -/
noncomputable def circularRows (jdTT : ℝ) : List OrbitalRow :=
  getOrbitalBodies.map fun b =>
    let theta := meanLongitudeDeg jdTT b.T_days
    let v := speedKmPerSec b.a_AU b.T_days
    let x := b.a_AU * Real.cos (toRad theta)
    let y := b.a_AU * Real.sin (toRad theta)
    { name := b.name, a := b.a_AU, theta := theta, x := x, y := y, v := v, T := b.T_days }

/-- The `merged` list of the rows-builder `useEffect` (App.tsx lines 369-376):
`getOrbitalBodies().map(...).filter(Boolean)`.  Note the row keeps the
model's mean speed `speedKmPerSec(b.a_AU, b.T_days)`, not the external
`v_kms` (source comment: "keep mean v for now"). -/
noncomputable def mergedRows (map : String → Option SpiceState) : List OrbitalRow :=
  (getOrbitalBodies.map fun b =>
      match map b.name with
      | some m =>
          some { name := b.name, a := b.a_AU, theta := m.thetaDeg, x := m.x_AU,
                 y := m.y_AU, v := speedKmPerSec b.a_AU b.T_days, T := b.T_days }
      | none => none).filterMap id

/-- The resolved outcome of one tick of the rows-builder `useEffect`
(App.tsx lines 362-383): the row table together with the final
`spiceStatus`.  The transient `loading` state pending the request is not a
resolved outcome and does not appear. -/
noncomputable def buildRows (dataSource : DataSource)
    (response : Option (List SpiceJsonRow)) (visualJDTT : ℝ) :
    List OrbitalRow × SpiceStatus :=
  match dataSource with
  | .spice =>
    match fetchSpiceStates response with
    | some map =>
        let merged := mergedRows map
        if merged.length ≠ 0 then (merged, .ok)
        else (circularRows visualJDTT, .error)
    | none => (circularRows visualJDTT, .error)
  | .model => (circularRows visualJDTT, .idle)

/-- A record lookup that succeeds comes from some response row with the
looked-up name. -/
theorem foldl_record_lookup (json : List SpiceJsonRow)
    (acc : String → Option SpiceState) (n : String) (st : SpiceState)
    (h : (json.foldl
        (fun out r => fun k => if k = r.name then some (spiceStateOf r) else out k)
        acc) n = some st) :
    (∃ jr ∈ json, jr.name = n ∧ st = spiceStateOf jr) ∨ acc n = some st := by
  induction json generalizing acc with
  | nil => exact Or.inr h
  | cons r rest ih =>
    rcases ih _ h with h1 | h2
    · rcases h1 with ⟨jr, hmem, hname, hst⟩
      exact Or.inl ⟨jr, List.mem_cons_of_mem _ hmem, hname, hst⟩
    · have h2' : (if n = r.name then some (spiceStateOf r) else acc n) = some st := h2
      by_cases hn : n = r.name
      · rw [if_pos hn] at h2'
        exact Or.inl ⟨r, List.mem_cons_self _ _, hn.symm, (Option.some.inj h2').symm⟩
      · rw [if_neg hn] at h2'
        exact Or.inr h2'

/-- Specification of `mapJson`: every successful lookup is the converted
state of some response row bearing that name. -/
theorem mapJson_eq_some (json : List SpiceJsonRow) (n : String) (st : SpiceState)
    (h : mapJson json n = some st) :
    ∃ jr ∈ json, jr.name = n ∧ st = spiceStateOf jr := by
  rcases foldl_record_lookup json (fun _ => none) n st h with h1 | h2
  · exact h1
  · exact absurd h2 (by simp)

/-- A catalog body with a successful lookup contributes its merged row. -/
theorem mem_mergedRows {map : String → Option SpiceState} {b : OrbitalBody}
    {st : SpiceState} (hb : b ∈ getOrbitalBodies) (hst : map b.name = some st) :
    ({ name := b.name, a := b.a_AU, theta := st.thetaDeg, x := st.x_AU,
       y := st.y_AU, v := speedKmPerSec b.a_AU b.T_days, T := b.T_days } :
      OrbitalRow) ∈ mergedRows map := by
  unfold mergedRows
  refine List.mem_filterMap.mpr ⟨some _, List.mem_map.mpr ⟨b, hb, ?_⟩, rfl⟩
  rw [hst]

/-- The merged rows are exactly (by name, in catalog order) the catalog
bodies whose lookup succeeded. -/
theorem mergedRows_names (map : String → Option SpiceState) :
    (mergedRows map).map (fun r => r.name)
      = (getOrbitalBodies.filter (fun b => (map b.name).isSome)).map
          (fun b => b.name) := by
  unfold mergedRows
  generalize getOrbitalBodies = l
  induction l with
  | nil => rfl
  | cons b rest ih =>
    cases hmap : map b.name with
    | none =>
      simp only [List.map_cons, List.filterMap_cons, hmap, List.filter_cons,
        Option.isSome_none, Bool.false_eq_true, if_false, id]
      exact ih
    | some st =>
      simp only [List.map_cons, List.filterMap_cons, hmap, List.filter_cons,
        Option.isSome_some, if_true, id]
      exact congrArg _ ih

/-- The non-empty circular-model table. -/
theorem circularRows_ne_nil (t : ℝ) : circularRows t ≠ [] := by
  unfold circularRows getOrbitalBodies
  simp

/-- C1. If the external source is selected and the fetch fails (network
error, non-success status, malformed response — `response = none`) or the
response maps zero catalog bodies (`mergedRows ... = []`), the tick yields
exactly the circular model's non-empty table and the `error` status. -/
theorem external_fallback_C1 (response : Option (List SpiceJsonRow)) (t : ℝ)
    (hfail : response = none ∨ mergedRows (mapJson (response.getD [])) = []) :
    buildRows DataSource.spice response t = (circularRows t, SpiceStatus.error) ∧
    circularRows t ≠ [] := by
  refine ⟨?_, circularRows_ne_nil t⟩
  rcases hfail with hne | hempty
  · rw [hne]
    rfl
  · cases response with
    | none => rfl
    | some json =>
      have hempty' : mergedRows (mapJson json) = [] := hempty
      have hred : buildRows DataSource.spice (some json) t
          = (if (mergedRows (mapJson json)).length ≠ 0
              then (mergedRows (mapJson json), SpiceStatus.ok)
              else (circularRows t, SpiceStatus.error)) := rfl
      rw [hred, hempty']
      simp

/-- Witness for C1: a failed fetch (`none`) at `t = 0`. -/
theorem external_fallback_C1_witness :
    ((none : Option (List SpiceJsonRow)) = none ∨
      mergedRows (mapJson ((none : Option (List SpiceJsonRow)).getD [])) = []) ∧
    (buildRows DataSource.spice none 0 = (circularRows 0, SpiceStatus.error) ∧
      circularRows 0 ≠ []) :=
  ⟨Or.inl rfl, external_fallback_C1 none 0 (Or.inl rfl)⟩

/-- A concrete one-row response for Mercury with velocity `(3, 4)` km/s. -/
noncomputable def json0 : List SpiceJsonRow := [⟨"Mercury", 100, 200, 3, 4⟩]

/-- C2 counterexample: for `json0` the produced row's speed is the model's
mean circular speed, which differs from `hypot(vx, vy) = hypot 3 4` of the
external velocity components — so rows are not built exclusively from the
external data. -/
theorem external_rows_C2_counterexample :
    ((buildRows DataSource.spice (some json0) 0).1.map (fun r => r.v)
        = [speedKmPerSec 0.38709893 87.969]) ∧
    speedKmPerSec 0.38709893 87.969 ≠ hypot 3 4 := by
  constructor
  · rfl
  · have h5 : hypot 3 4 = 5 := by
      unfold hypot
      rw [show (3:ℝ) ^ 2 + 4 ^ 2 = 5 ^ 2 by norm_num]
      exact Real.sqrt_sq (by norm_num)
    rw [h5]
    have hpi1 : (3.141592 : ℝ) < Real.pi := by
      have := Real.pi_gt_d6
      linarith
    unfold speedKmPerSec AU_KM
    apply ne_of_gt
    rw [div_div, lt_div_iff₀ (by norm_num : (0:ℝ) < 87.969 * 86400)]
    nlinarith

/-- C2 as amended. For every successful fetch, every catalog body whose
lookup succeeded yields a row whose `x`, `y` and `theta` come from the
external state (km → AU, `mod(atan2 deg, 360)`), while its `v` is the
model's mean circular speed `speedKmPerSec(a, T)` — the external
`hypot(vx, vy)` is computed but not used in the row. -/
theorem external_rows_C2_amended (json : List SpiceJsonRow) (t : ℝ)
    (b : OrbitalBody) (st : SpiceState)
    (hb : b ∈ getOrbitalBodies) (hst : mapJson json b.name = some st) :
    ({ name := b.name, a := b.a_AU, theta := st.thetaDeg, x := st.x_AU,
        y := st.y_AU, v := speedKmPerSec b.a_AU b.T_days, T := b.T_days } :
        OrbitalRow) ∈ (buildRows DataSource.spice (some json) t).1 ∧
    (buildRows DataSource.spice (some json) t).2 = SpiceStatus.ok ∧
    ∃ jr ∈ json, jr.name = b.name ∧
      st.x_AU = jr.x_km / AU_KM ∧ st.y_AU = jr.y_km / AU_KM ∧
      st.thetaDeg = mod (toDeg (atan2 (jr.y_km / AU_KM) (jr.x_km / AU_KM))) 360 ∧
      st.v_kms = hypot jr.vx_km_s jr.vy_km_s := by
  have hmem := mem_mergedRows hb hst
  have hne : mergedRows (mapJson json) ≠ [] := List.ne_nil_of_mem hmem
  have hcond : (mergedRows (mapJson json)).length ≠ 0 := by
    intro hl
    exact hne (List.length_eq_zero.mp hl)
  have hrows : buildRows DataSource.spice (some json) t
      = (mergedRows (mapJson json), SpiceStatus.ok) := by
    have hred : buildRows DataSource.spice (some json) t
        = (if (mergedRows (mapJson json)).length ≠ 0
            then (mergedRows (mapJson json), SpiceStatus.ok)
            else (circularRows t, SpiceStatus.error)) := rfl
    rw [hred, if_pos hcond]
  refine ⟨by rw [hrows]; exact hmem, by rw [hrows], ?_⟩
  obtain ⟨jr, hjr, hname, hsteq⟩ := mapJson_eq_some json b.name st hst
  exact ⟨jr, hjr, hname, by rw [hsteq]; rfl, by rw [hsteq]; rfl,
    by rw [hsteq]; rfl, by rw [hsteq]; rfl⟩

/-- Witness for the amended C2 at the concrete response `json0`. -/
theorem external_rows_C2_witness :
    (⟨"Mercury", 0.38709893, 87.969⟩ : OrbitalBody) ∈ getOrbitalBodies ∧
    mapJson json0 "Mercury" = some (spiceStateOf ⟨"Mercury", 100, 200, 3, 4⟩) ∧
    ({ name := "Mercury", a := 0.38709893,
        theta := mod (toDeg (atan2 (200 / AU_KM) (100 / AU_KM))) 360,
        x := 100 / AU_KM, y := 200 / AU_KM,
        v := speedKmPerSec 0.38709893 87.969, T := 87.969 } : OrbitalRow)
      ∈ (buildRows DataSource.spice (some json0) 0).1 := by
  have hb : (⟨"Mercury", 0.38709893, 87.969⟩ : OrbitalBody) ∈ getOrbitalBodies :=
    List.Mem.head _
  have hst : mapJson json0 "Mercury"
      = some (spiceStateOf ⟨"Mercury", 100, 200, 3, 4⟩) := rfl
  exact ⟨hb, hst, (external_rows_C2_amended json0 0 _ _ hb hst).1⟩

/-- C3. When the response maps at least one catalog body, the resulting row
table lists exactly the mapped catalog bodies (by name, in catalog order):
unmapped bodies are dropped, not back-filled from the circular model. -/
theorem partial_mapping_C3 (json : List SpiceJsonRow) (t : ℝ)
    (hmapped : mergedRows (mapJson json) ≠ []) :
    (buildRows DataSource.spice (some json) t).1.map (fun r => r.name)
      = (getOrbitalBodies.filter (fun b => (mapJson json b.name).isSome)).map
          (fun b => b.name) := by
  have hcond : (mergedRows (mapJson json)).length ≠ 0 := by
    intro hl
    exact hmapped (List.length_eq_zero.mp hl)
  have hred : buildRows DataSource.spice (some json) t
      = (if (mergedRows (mapJson json)).length ≠ 0
          then (mergedRows (mapJson json), SpiceStatus.ok)
          else (circularRows t, SpiceStatus.error)) := rfl
  rw [hred, if_pos hcond]
  exact mergedRows_names (mapJson json)

/-- A response mapping 3 of the 8 catalog bodies (Venus, Earth, Mars). -/
noncomputable def json1 : List SpiceJsonRow :=
  [⟨"Venus", 1, 2, 3, 4⟩, ⟨"Earth", 5, 6, 7, 8⟩, ⟨"Mars", 9, 10, 11, 12⟩]

/-- Witness for C3 at the 3-of-8 response `json1`. -/
theorem partial_mapping_C3_witness :
    mergedRows (mapJson json1) ≠ [] ∧
    (buildRows DataSource.spice (some json1) 0).1.map (fun r => r.name)
      = (getOrbitalBodies.filter (fun b => (mapJson json1 b.name).isSome)).map
          (fun b => b.name) := by
  have hb : (⟨"Venus", 0.72333199, 224.701⟩ : OrbitalBody) ∈ getOrbitalBodies :=
    List.Mem.tail _ (List.Mem.head _)
  have hst : mapJson json1 "Venus" = some (spiceStateOf ⟨"Venus", 1, 2, 3, 4⟩) := rfl
  have hne : mergedRows (mapJson json1) ≠ [] :=
    List.ne_nil_of_mem (mem_mergedRows hb hst)
  exact ⟨hne, partial_mapping_C3 json1 0 hne⟩

end CosmicClock
